import Mathlib

/-!
# Verification of the eventdb core

A shallow embedding, in Lean 4, of the core pieces of the `eventdb`
repository:

* the Domain Error Model (`src/errors/errors.go`): the chained,
  kind-classified `Error` type, its constructor `E`, and the `Is`
  predicate;
* the Bad-Event Classifier (`IsBadEvent` and its matcher lists);
* the Ingestion Pipeline (`Service.EventSubmit` and the `retry`
  backoff loop);
* the Destination Selection Engine (`Service.DestGenerate`,
  `Service.nextEvent`, `Service.DestList`).

Go `time.Time` values are modelled as `Int` minutes; durations from the
source (10 minutes, 30 minutes, 90 minutes, 48 hours) become the integer
constants 10, 30, 90 and 2880.  External collaborators (the Postgres
stores, the Facebook Graph API client, the ambient context) are modelled
as explicit function-valued oracles, and randomness (`rand.Intn`,
`rand.Float64`) as explicit choice functions, so that every definition
is executable and deterministic.
-/

namespace Eventdb

/-! ## Domain Error Model — `src/errors/errors.go` -/

/-- Model of `errors.Kind`: the class of a domain error.  `Other` is the zero
value (Go `iota` order preserved). -/
inductive Kind where
  | Other
  | Invalid
  | NotLoggedIn
  | Permission
  | NotExist
  | Exist
  | Internal
deriving DecidableEq, Repr

/-- A Go `error` interface value as seen by the eventdb core.  `nil`
is the nil interface; `dom` is the domain type `*errors.Error` (fields
`UserID`, `Op`, `Kind`, `Err` — the nil-able `Err` is a `GoErr` again,
with `nil` for "unset"); `fb` is `facebook.Error` (fields `Message`,
`Type`, `Code`, `Subcode`); `str` is any other error, represented by
its message (this covers `errors.errorString` produced by
`errors.Str`/`errors.Errorf`). -/
inductive GoErr where
  | nil
  | str (msg : String)
  | fb (message ftype : String) (code subcode : Int)
  | dom (userID op : String) (kind : Kind) (cause : GoErr)
deriving DecidableEq, Repr

/-- The in-progress fields of the `*Error` being built by `errors.E`
(the local variable `e` before the normalization step). -/
structure EState where
  userID : String
  op : String
  kind : Kind
  err : GoErr

/-- One argument to the variadic `errors.E`.  The Go type switch
dispatches on the dynamic type: `eventdb.UserID`, `errors.Op`, `string`,
`errors.Kind`, `*Error` (copied), or any other `error`.  Here `err`
carries any `GoErr` (the copy taken by the `*Error` case is implicit in
value semantics; the pointer-level copy is modelled separately below). -/
inductive EArg where
  | user (u : String)
  | op (o : String)
  | str (s : String)
  | kind (k : Kind)
  | err (e : GoErr)

/-- One iteration of the argument loop in `errors.E`: the last argument
of each slot wins; `string` and error arguments both land in `err`. -/
def applyEArg (e : EState) (arg : EArg) : EState :=
  match arg with
  | .user u => { e with userID := u }
  | .op o => { e with op := o }
  | .str s => { e with err := .str s }
  | .kind k => { e with kind := k }
  | .err x => { e with err := x }

/-- The state of `e` in `errors.E` after the argument loop and before
the duplicate-suppression normalization. -/
def buildEState (args : List EArg) : EState :=
  args.foldl applyEArg ⟨"", "", Kind.Other, .nil⟩

/-- Model of `errors.E`: build an error from its arguments, then, when the
previous error is also a `*Error`, suppress duplications — clear a
repeated `UserID` on the inner error, demote a repeated `Kind` to
`Other`, and when the new error's `Kind` is `Other` pull the inner
`Kind` up (demoting the inner one).  (The Go function panics on an
empty argument list; the core never calls it that way.) -/
def E (args : List EArg) : GoErr :=
  let e := buildEState args
  match e.err with
  | GoErr.dom prevUserID prevOp prevKind prevCause =>
    let prevUserID1 := if prevUserID = e.userID then "" else prevUserID
    let prevKind1 := if prevKind = e.kind then Kind.Other else prevKind
    if e.kind = Kind.Other then
      GoErr.dom e.userID e.op prevKind1 (GoErr.dom prevUserID1 prevOp Kind.Other prevCause)
    else
      GoErr.dom e.userID e.op e.kind (GoErr.dom prevUserID1 prevOp prevKind1 prevCause)
  | _ => GoErr.dom e.userID e.op e.kind e.err

/-- Model of `errors.Is kind err`: true when `err` is a `*Error` whose `Kind`
matches, recursing into the cause while the outer `Kind` is `Other`.
A `nil` error or a non-`*Error` gives `false`. -/
def Is (kind : Kind) : GoErr → Bool
  | GoErr.dom _ _ k cause =>
    if k ≠ Kind.Other then decide (k = kind) else Is kind cause
  | _ => false

/-- Field accessor: the `Kind` of a `*Error` (`Other` on other errors,
matching the Go zero value). -/
def errKind : GoErr → Kind
  | .dom _ _ k _ => k
  | _ => .Other

/-- Field accessor: the `UserID` of a `*Error`. -/
def errUserID : GoErr → String
  | .dom u _ _ _ => u
  | _ => ""

/-- Field accessor: the wrapped cause of a `*Error` (`GoErr.nil` when
unset or not a `*Error`). -/
def errCause : GoErr → GoErr
  | .dom _ _ _ c => c
  | _ => .nil

/-! ### Pointer-level model of `errors.E`

`errors.E` receives its `*Error` cause by pointer and runs a
normalization that writes to the fields of the node held in `e.Err`.
The Go source first copies the argument (`copy := *arg; e.Err = &copy`),
so those writes land on a fresh node.  To make that observable we model
the heap explicitly: nodes live in a list, a pointer is an index, and
`EHeap` returns the address of the new error together with the new
heap.  Claim C10 is about this model. -/

/-- A `*errors.Error` node on the heap.  The `err` field holds either a
pointer to another `*Error` node (`Sum.inl`) or a terminal non-domain
error's message (`Sum.inr`). -/
structure ENode where
  userID : String
  op : String
  kind : Kind
  err : Option (Nat ⊕ String)
deriving DecidableEq, Repr

instance : Inhabited ENode := ⟨⟨"", "", Kind.Other, none⟩⟩

/-- The heap of `*Error` nodes: a pointer is an index into the list and
allocation appends. -/
abbrev EHeapMem := List ENode

/-- In-progress fields of `errors.E`'s local `e`, pointer-level view. -/
structure EStateH where
  userID : String
  op : String
  kind : Kind
  err : Option (Nat ⊕ String)

/-- One argument to `errors.E`, pointer-level view: `errDom p` is a
`*Error` argument pointing at heap address `p`; `errOther` is any other
error. -/
inductive HArg where
  | user (u : String)
  | op (o : String)
  | str (s : String)
  | kind (k : Kind)
  | errDom (p : Nat)
  | errOther (s : String)

/-- One iteration of the argument loop of `errors.E` over the heap.
The `*Error` case performs `copy := *arg; e.Err = &copy`: it allocates
a fresh node holding a shallow copy of the argument's node and stores
the fresh pointer. -/
def applyHArg (acc : EStateH × EHeapMem) (arg : HArg) : EStateH × EHeapMem :=
  let (e, h) := acc
  match arg with
  | .user u => ({ e with userID := u }, h)
  | .op o => ({ e with op := o }, h)
  | .str s => ({ e with err := some (Sum.inr s) }, h)
  | .kind k => ({ e with kind := k }, h)
  | .errDom p => ({ e with err := some (Sum.inl h.length) }, h ++ [h.getD p default])
  | .errOther s => ({ e with err := some (Sum.inr s) }, h)

/-- Model of `errors.E` at the pointer level: fold the arguments, then run the
normalization, which writes to the node `e.Err` points at (the copy),
and finally allocate the new outer node, returning its address. -/
def EHeap (args : List HArg) (h : EHeapMem) : Nat × EHeapMem :=
  let (e, h1) := args.foldl applyHArg (⟨"", "", Kind.Other, none⟩, h)
  match e.err with
  | some (Sum.inl q) =>
    let prev := h1.getD q default
    let prev1 := if prev.userID = e.userID then { prev with userID := "" } else prev
    let prev2 := if prev1.kind = e.kind then { prev1 with kind := Kind.Other } else prev1
    let eKind := if e.kind = Kind.Other then prev2.kind else e.kind
    let prev3 := if e.kind = Kind.Other then { prev2 with kind := Kind.Other } else prev2
    let h2 := h1.set q prev3
    (h2.length, h2 ++ [⟨e.userID, e.op, eKind, e.err⟩])
  | _ => (h1.length, h1 ++ [⟨e.userID, e.op, e.kind, e.err⟩])

/-! ## Data model — `src/event.go`, `src/dest.go` -/

/-- Model of `eventdb.Event` (the fields the core algorithms read; latitude,
longitude and the display metadata are carried by the store and never
inspected by the core, so they are omitted).  Times are `Int` minutes. -/
structure Event where
  id : String
  name : String
  description : String
  startTime : Int
  endTime : Int
  isBad : Bool
deriving DecidableEq, Repr

instance : Inhabited Event := ⟨⟨"", "", "", 0, 0, false⟩⟩

/-- Model of `eventdb.Dest`: a recorded destination.  `event` is the side-loaded
`*Event` (`none` = nil pointer); `status`/`feedback`/timestamps are
never read by the selection engine and are omitted. -/
structure Dest where
  id : String
  userID : String
  eventID : String
  event : Option Event
deriving Repr

/-! ## Bad-Event Classifier — `IsBadEvent` in `src/e2e/event_test.go`
(package `eventdb`)

Each Go `regexp` in `nameFilters`/`descFilters` is a case-insensitive
substring or word-bounded substring pattern; they are modelled as
executable character-list matchers below. -/

/-- Characters of `s` folded to lower case (the patterns are ASCII, so
per-`Char` lowering matches Go's `(?i)` folding on them). -/
def lowerChars (s : String) : List Char :=
  s.toList.map Char.toLower

/-- Does `pat` occur in `hay` starting at index `i`? -/
def matchSubAt (hay pat : List Char) (i : Nat) : Bool :=
  (hay.drop i).take pat.length == pat

/-- Go `regexp`'s `\w`: ASCII letter, digit or underscore. -/
def isWordChar (c : Char) : Bool :=
  c.isAlphanum || c == '_'

/-- Is the character at index `i` a word character?  Out-of-range
positions count as non-word (the edges of the string are boundaries). -/
def wordAt (hay : List Char) (i : Nat) : Bool :=
  isWordChar (hay.getD i ' ')

/-- Model of a Go regexp `(?i)foo` (no word boundaries): `pat` occurs
anywhere in `s`, case-insensitively. -/
def ciContains (s pat : String) : Bool :=
  let hay := lowerChars s
  let p := lowerChars pat
  (List.range (hay.length + 1)).any fun i => matchSubAt hay p i

/-- Model of a Go regexp `(?i)\bfoo\b` where `foo` starts and ends with
word characters: `pat` occurs case-insensitively with word boundaries on
both sides. -/
def ciContainsWord (s pat : String) : Bool :=
  let hay := lowerChars s
  let p := lowerChars pat
  (List.range (hay.length + 1)).any fun i =>
    matchSubAt hay p i && !(decide (0 < i) && wordAt hay (i - 1)) && !wordAt hay (i + p.length)

/-- Model of the case-sensitive regexp `Rs *\d` (India price tag):
`"Rs"` followed by any number of spaces and a digit. -/
def rsMatch (s : String) : Bool :=
  let hay := s.toList
  (List.range hay.length).any fun i =>
    matchSubAt hay ['R', 's'] i &&
      (((hay.drop (i + 2)).dropWhile (fun c => c == ' ')).headD ' ').isDigit

/-- The alternation of currency symbols in the first description filter,
`(\$|¥|₹|₡|₱|£|€|₩|₨|﷼|₱|₽)` (the source lists `₱` twice). -/
def currencyChars : List Char :=
  ['$', '¥', '₹', '₡', '₱', '£', '€', '₩', '₨', '﷼', '₱', '₽']

/-- The name matcher set (`nameFilters` in the source, in order):
sold-out/canceled markers (with three German equivalents), funerals, and
bar/pub marketing. -/
def nameFilters : List (String → Bool) :=
  [ fun s => ciContainsWord s "Sold Out"
  , fun s => ciContainsWord s "Cancel"
  , fun s => ciContainsWord s "geschlossene"
  , fun s => ciContainsWord s "abgesagte"
  , fun s => ciContainsWord s "annulliert"
  , fun s => ciContainsWord s "Funeral"
  , fun s => ciContainsWord s "bar"
  , fun s => ciContainsWord s "pub"
  ]

/-- The description matcher set (`descFilters` in the source, in
order): currency symbols and paid-event words, support groups and
demographic-restricted gatherings, and registration/RSVP markers. -/
def descFilters : List (String → Bool) :=
  [ fun s => currencyChars.any (fun c => s.toList.contains c)
  , fun s => ciContains s "dollars"
  , fun s => rsMatch s
  , fun s => ciContains s "support group"
  , fun s => ciContains s "men only" || ciContains s "women only" || ciContains s "children only"
  , fun s => ciContains s "regist"
  , fun s => ciContains s "RSVP"
  , fun s => ciContains s "anmelden"
  , fun s => ciContains s "anmeldung"
  ]

/-- Model of `eventdb.IsBadEvent`: run the name matchers over the event's name
and the description matchers over its description, returning true on
the first match and false when no matcher fires. -/
def IsBadEvent (event : Event) : Bool :=
  nameFilters.any (fun filt => filt event.name) ||
    descFilters.any (fun filt => filt event.description)

/-! ## Facebook error recognition — `src/facebook/response.go` -/

/-- Model of `facebook.IsTokenExpired`: true when the error's dynamic type is
`facebook.Error` with `Type == "OAuthException"` and `Code == 190`
(`false` on nil and on every other error type). -/
def IsTokenExpired : GoErr → Bool
  | GoErr.fb _ ftype code _ => ftype == "OAuthException" && code == 190
  | _ => false

/-! ## Ingestion Pipeline — `Service.EventSubmit` and `retry`
(`src/unnamed/part_010`) -/

/-- An observable action of the `retry` loop, in order of occurrence:
a check of `ctx.Err()`, a call of the wrapped function `f`, or a
`time.Sleep` of the given number of seconds. -/
inductive RAction where
  | check
  | attempt
  | sleep (seconds : ℚ)

/-- A store mutation performed by an `EventSubmit` attempt:
`clearToken u` is the `UserStore.Update` call that blanks user `u`'s
Facebook token; `save` is `EventStore.Save` of one raw event body;
`setBad` is `EventStore.SetBad`. -/
inductive Effect where
  | clearToken (fetcherID : String)
  | save (body : String)
  | setBad (eventID : String) (bad : Bool)
deriving DecidableEq, Repr

/-- The `retry` exponential-backoff loop.  `ctxErr k` is what
`ctx.Err()` returns at the check opening iteration `k` (`none` while
the ambient context is live); `f k` is the attempt's result together
with the store mutations it performed; `jitter k` models the
`rand.Float64()` summand of iteration `k`'s backoff.  Returns the
final error, the trace of actions, and the concatenated mutations.
Per the source: the context is checked at the top of every iteration
and its error returned as-is; a failed attempt with retries left
decrements `retries` and sleeps `2^retries + jitter` seconds. -/
def retry (ctxErr : Nat → GoErr) (jitter : Nat → ℚ)
    (f : Nat → GoErr × List Effect) :
    (retries : Nat) → (k : Nat) → GoErr × List RAction × List Effect
  | retries, k =>
    if ctxErr k ≠ .nil then (ctxErr k, [.check], [])
    else
      let att := f k
      if att.1 ≠ .nil then
        match retries with
        | 0 => (att.1, [.check, .attempt], att.2)
        | r + 1 =>
          let backoff : ℚ := 2 ^ r + jitter k
          let rest := retry ctxErr jitter f r (k + 1)
          (rest.1, .check :: .attempt :: .sleep backoff :: rest.2.1, att.2 ++ rest.2.2)
      else (.nil, [.check, .attempt], att.2)

/-- The external collaborators of `Service.EventSubmit`, as oracles:
`randomFBToken k` is `UserStore.RandomFBToken`'s result on attempt `k`
(a fetcher user id and OAuth token); `getEventInfo token ids` is the
Facebook client's batched fetch (raw JSON bodies modelled as opaque
strings); `updateUser u` is the result of the token-clearing
`UserStore.Update`; `save body` is `EventStore.Save`; `setBad id b` is
`EventStore.SetBad`. -/
structure SubmitOracles where
  randomFBToken : Nat → Except GoErr (String × String)
  getEventInfo : String → List String → Except GoErr (List String)
  updateUser : String → Except GoErr Unit
  save : String → Except GoErr Event
  setBad : String → Bool → Except GoErr Unit

/-- The persistence loop at the end of an `EventSubmit` attempt: save
each fetched raw event, classify it with `IsBadEvent`, and persist the
flag; the first failure aborts the remaining batch. -/
def saveEvents (o : SubmitOracles) : List String → GoErr × List Effect
  | [] => (.nil, [])
  | body :: rest =>
    match o.save body with
    | .error err => (E [.op "Service.EventSubmit", .kind .Internal, .str "save event", .err err], [])
    | .ok event =>
      match o.setBad event.id (IsBadEvent event) with
      | .error err =>
        (E [.op "Service.EventSubmit", .kind .Internal, .str "mark bad", .err err], [.save body])
      | .ok _ =>
        let out := saveEvents o rest
        (out.1, .save body :: .setBad event.id (IsBadEvent event) :: out.2)

/-- The closure passed to `retry` by `Service.EventSubmit` (attempt
`k`): acquire a random credential, fetch the batch, handle credential
expiry by clearing the owning user's token, and persist the results. -/
def eventSubmitAttempt (o : SubmitOracles) (userID : String)
    (eventIDs : List String) (k : Nat) : GoErr × List Effect :=
  match o.randomFBToken k with
  | .error err => (E [.op "Service.EventSubmit", .kind .Internal, .user userID, .err err], [])
  | .ok (fetcherID, oauthToken) =>
    let fetchRes := o.getEventInfo oauthToken eventIDs
    let fetchErr : GoErr := match fetchRes with | .error e => e | .ok _ => .nil
    if IsTokenExpired fetchErr then
      match o.updateUser fetcherID with
      | .error err =>
        (E [.op "Service.EventSubmit", .user userID, .str "expire user token", .err err],
          [.clearToken fetcherID])
      | .ok _ =>
        (E [.op "Service.EventSubmit", .user userID, .str "facebook token expired"],
          [.clearToken fetcherID])
    else
      match fetchRes with
      | .error err => (err, [])
      | .ok bodies => saveEvents o bodies

/-- Model of `Service.EventSubmit`: reject anonymous callers with `Permission`
and oversized batches (more than 50 ids) with `Invalid`, then run the
fetch-and-persist attempt under `retry ctx 3`; a final failure is
wrapped once more with the operation name.  Returns the error, the
retry loop's action trace, and the store mutations performed. -/
def EventSubmit (o : SubmitOracles) (ctxErr : Nat → GoErr) (jitter : Nat → ℚ)
    (actorID : String) (eventIDs : List String) :
    GoErr × List RAction × List Effect :=
  if actorID = "" then
    (E [.op "Service.EventSubmit", .kind .Permission], [], [])
  else if eventIDs.length > 50 then
    (E [.op "Service.EventSubmit", .kind .Invalid, .user actorID,
      .str ("event list length (" ++ toString eventIDs.length ++ ") > max (50)")], [], [])
  else
    let out := retry ctxErr jitter (eventSubmitAttempt o actorID eventIDs) 3 0
    if out.1 ≠ .nil then (E [.op "Service.EventSubmit", .err out.1], out.2.1, out.2.2)
    else (.nil, out.2.1, out.2.2)

/-! ## Destination Selection Engine — `Service.DestGenerate`,
`Service.nextEvent`, `Service.DestList` (`src/unnamed/part_010`) -/

/-- Model of `eventdb.DestGenerateResult` (`"ok"`, `"wait"`, `"no-results"`,
`"error"`). -/
inductive DestGenerateResult where
  | GenerateOK
  | GenerateWait
  | GenerateNoResults
  | GenerateError
deriving DecidableEq, Repr

/-- The store collaborators read or written by the selection engine.
`search start stop` is `EventStore.Search` over the fixed circular
region with the time window `[start, stop)` (`IncludeBad` unset, so
bad-flagged events are already excluded by the store); `listForUser u`
is `DestStore.ListForUser u` (most recent first, first page);
`getByID`/`getMulti` are the event lookups; `create` is
`DestStore.Create`, the only mutating call on this path. -/
structure Store where
  listForUser : String → Except GoErr (List Dest)
  getByID : String → Except GoErr Event
  getMulti : List String → Except GoErr (List Event)
  search : Int → Int → Except GoErr (List Event)
  create : Dest → Except GoErr Dest

/-- The outcome of `Service.nextEvent`: the chosen event id (`""` when
none), the generate result, the returned error, and — as ghost
instrumentation for the resource bound — the number of
`EventStore.Search` calls issued. -/
structure NextEventOut where
  chosenID : String
  result : DestGenerateResult
  err : GoErr
  searchCalls : Nat

/-- The candidate filter body of `Service.nextEvent`'s loop: an event
is rejected (`badEvent` in the source) when its id is already among the
caller's destinations or when the arrival time `now + 30` minutes is
after its end time. -/
def filteredOut (alreadyChosen : List Dest) (now : Int) (event : Event) : Bool :=
  alreadyChosen.any (fun chosen => chosen.eventID == event.id) ||
    decide (now + 30 > event.endTime)

/-- The sliding-window search loop of `Service.nextEvent`.  Starting
from `searchTime`, it stops with `GenerateNoResults` once
`searchTime - now` exceeds 48 hours (2880 minutes); otherwise it
queries the 90-minute window `[searchTime, searchTime + 90)`, maps a
`NotExist` failure to `GenerateNoResults` and any other failure to
`GenerateError`, filters the candidates, picks index
`rng (length goodEvents)` (modelling `rand.Intn`) from a non-empty
candidate list, and otherwise advances the window by 90 minutes. -/
def nextEventLoop (search : Int → Int → Except GoErr (List Event))
    (alreadyChosen : List Dest) (rng : Nat → Nat) (userID : String)
    (now : Int) (searchTime : Int) : NextEventOut :=
  if _h : searchTime - now > 2880 then
    ⟨"", .GenerateNoResults, .nil, 0⟩
  else
    match search searchTime (searchTime + 90) with
    | .error err =>
      if Is .NotExist err then
        ⟨"", .GenerateNoResults, .nil, 1⟩
      else
        ⟨"", .GenerateError,
          E [.op "Service.nextEvent", .user userID, .str "search failed", .err err], 1⟩
    | .ok events =>
      let goodEvents := events.filter (fun event => !filteredOut alreadyChosen now event)
      if goodEvents.isEmpty then
        let rest := nextEventLoop search alreadyChosen rng userID now (searchTime + 90)
        { rest with searchCalls := rest.searchCalls + 1 }
      else
        ⟨(goodEvents.getD (rng goodEvents.length) default).id, .GenerateOK, .nil, 1⟩
termination_by ((2970 : Int) - (searchTime - now)).toNat
decreasing_by omega

/-- Model of `Service.nextEvent`: list the caller's destinations (newest
first); if the most recent destination's event has not started yet
(`StartTime.After(now)`), return `GenerateWait`; otherwise run the
window loop from `now + 10` minutes.  Store failures short-circuit to
`GenerateError` with the error built exactly as in the source (note
the argument order `op, userID, err, "…"` puts the string message
last, so it replaces the underlying error in the `Err` slot). -/
def nextEvent (store : Store) (rng : Nat → Nat) (userID : String) (now : Int) :
    NextEventOut :=
  match store.listForUser userID with
  | .error err =>
    ⟨"", .GenerateError, E [.op "Service.nextEvent", .user userID, .err err, .str "list dests"], 0⟩
  | .ok alreadyChosen =>
    let waitCheck : Option NextEventOut :=
      match alreadyChosen with
      | lastDest :: _ =>
        match store.getByID lastDest.eventID with
        | .error err =>
          some ⟨"", .GenerateError,
            E [.op "Service.nextEvent", .user userID, .err err, .str "get last event"], 0⟩
        | .ok lastEvent =>
          if lastEvent.startTime > now then some ⟨"", .GenerateWait, .nil, 0⟩ else none
      | [] => none
    match waitCheck with
    | some out => out
    | none => nextEventLoop store.search alreadyChosen rng userID now (now + 10)

/-- Model of `Service.DestList`: reject anonymous callers with `NotLoggedIn`,
list the caller's destinations, and side-load each entry's event from
the batched `GetMulti` lookup (first id match wins, a missing event
leaves the field nil). -/
def DestList (store : Store) (actorID : String) : Except GoErr (List Dest) :=
  if actorID = "" then
    .error (E [.op "Service.DestList", .kind .NotLoggedIn])
  else
    match store.listForUser actorID with
    | .error err => .error (E [.op "Service.DestList", .user actorID, .err err])
    | .ok dests =>
      let eventIDs := dests.map (fun dest => dest.eventID)
      match store.getMulti eventIDs with
      | .error err => .error (E [.op "Service.DestList", .user actorID, .err err])
      | .ok events =>
        .ok (dests.map (fun dest =>
          { dest with event := events.find? (fun event => dest.eventID == event.id) }))

/-- A Go call that may panic (the `*dest.Event` dereference in
`DestGenerate` is a nil-pointer panic when a destination's event was
not found by the side-load). -/
inductive GoResult (α : Type) where
  | ok (a : α)
  | panic
deriving Repr

/-- The requested-user resolution at the top of `Service.DestGenerate`:
`"me"` or the empty string denotes the caller. -/
def resolveUserID (actorID reqUserID : String) : String :=
  if reqUserID = "me" || reqUserID = "" then actorID else reqUserID

/-- Model of `eventdb.DestGenerateReply`. -/
structure DestGenerateReply where
  result : DestGenerateResult
  dests : List Dest
  events : List Event
deriving Repr

/-- Model of `Service.DestGenerate`: authorize the caller (anonymous →
`Permission`; a non-admin asking about another user → `Permission`;
`"me"`/empty resolves to the caller), run `nextEvent`, create one
`Dest` row on `GenerateOK`, and refresh the reply's history through
`DestList`, stripping the side-loaded events into a parallel list.
Returns the Go results (reply and error; `panic` for the nil
dereference of a missing side-loaded event) paired with the number of
`DestStore.Create` calls that succeeded — the only store mutation on
this path, instrumented for the frame claims. -/
def DestGenerate (store : Store) (actorID : String) (isAdmin : Bool)
    (reqUserID : String) (rng : Nat → Nat) (now : Int) :
    GoResult (DestGenerateReply × GoErr) × Nat :=
  let reply0 : DestGenerateReply := ⟨.GenerateOK, [], []⟩
  if actorID = "" then
    (.ok (reply0, E [.op "Service.DestGenerate", .kind .Permission]), 0)
  else
    let userID := resolveUserID actorID reqUserID
    if userID ≠ actorID ∧ ¬isAdmin then
      (.ok (reply0, E [.op "Service.DestGenerate", .kind .Permission]), 0)
    else
      let ne := nextEvent store rng userID now
      if ne.err ≠ .nil then
        (.ok (reply0, E [.op "Service.DestGenerate", .kind .Internal, .str "nextEvent failed", .err ne.err]), 0)
      else
        let reply1 := { reply0 with result := ne.result }
        let created : GoErr × Nat :=
          if ne.result = .GenerateOK then
            match store.create ⟨"", userID, ne.chosenID, none⟩ with
            | .error err => (err, 0)
            | .ok _ => (.nil, 1)
          else (.nil, 0)
        if created.1 ≠ .nil then
          (.ok (reply1, E [.op "Service.DestGenerate", .user userID, .kind .Internal, .str "create dest", .err created.1]), created.2)
        else
          match DestList store actorID with
          | .error err =>
            (.ok (reply1, E [.op "Service.DestGenerate", .user userID, .kind .Internal, .str "list dests", .err err]), created.2)
          | .ok dests =>
            if dests.all (fun dest => dest.event.isSome) then
              (.ok ({ reply1 with
                  dests := dests.map (fun dest => { dest with event := none }),
                  events := dests.filterMap (fun dest => dest.event) }, .nil), created.2)
            else
              (.panic, created.2)

/-! ## Trace observations and concrete fixtures -/

/-- Number of `f` invocations in a `retry` trace. -/
def countAttempts (tr : List RAction) : Nat :=
  tr.countP (fun a => match a with | .attempt => true | _ => false)

/-- The sleep durations of a `retry` trace, in order. -/
def sleepSeconds : List RAction → List ℚ
  | [] => []
  | .sleep d :: rest => d :: sleepSeconds rest
  | _ :: rest => sleepSeconds rest

/-- A store for the boundary counterexample: the caller has no history
and every search window contains exactly one event, ending at minute
30 — that is, exactly `now + 30` for `now = 0`. -/
def boundaryStore : Store where
  listForUser := fun _ => .ok []
  getByID := fun _ => .error (.str "not found")
  getMulti := fun _ => .ok []
  search := fun _ _ => .ok [⟨"e1", "picnic", "come hang out", 15, 30, false⟩]
  create := fun d => .ok d

/-- Oracles for the expired-credential counterexample: the only
credential is reported expired by the Facebook API, and clearing it
succeeds. -/
def expiredOracles : SubmitOracles where
  randomFBToken := fun _ => .ok ("fetcher", "tok")
  getEventInfo := fun _ _ => .error (.fb "Error validating access token" "OAuthException" 190 463)
  updateUser := fun _ => .ok ()
  save := fun _ => .error (.str "unreachable")
  setBad := fun _ _ => .error (.str "unreachable")

/-- A store whose history listing always fails (for the error-path
witnesses). -/
def failingListStore : Store where
  listForUser := fun _ => .error (.str "pq: connection refused")
  getByID := fun _ => .error (.str "not found")
  getMulti := fun _ => .ok []
  search := fun _ _ => .ok []
  create := fun d => .ok d

/-- A store with one unstarted destination at the head of the history
(for the WAIT witness): the last chosen event starts at minute 100. -/
def waitStore : Store where
  listForUser := fun _ => .ok [⟨"d1", "u", "e9", none⟩]
  getByID := fun _ => .ok ⟨"e9", "later", "starts later", 100, 200, false⟩
  getMulti := fun _ => .ok [⟨"e9", "later", "starts later", 100, 200, false⟩]
  search := fun _ _ => .ok []
  create := fun d => .ok d

/-- A store with no events anywhere (for the NO_RESULTS witness). -/
def emptyStore : Store where
  listForUser := fun _ => .ok []
  getByID := fun _ => .error (.str "not found")
  getMulti := fun _ => .ok []
  search := fun _ _ => .ok []
  create := fun d => .ok d

/-! ## Theorems -/

/-- C9: `IsBadEvent` is a pure, deterministic function of the event's
name and description — repeated calls on an unmodified event return the
same value; it returns true exactly when some matcher in the
name-matcher set or the description-matcher set fires (so false when
none fires); and every event whose description contains a currency
symbol is classified bad. -/
theorem IsBadEvent_pure_first_match_currency (e : Event) :
    IsBadEvent e = IsBadEvent e ∧
    (IsBadEvent e = true ↔
      (∃ filt ∈ nameFilters, filt e.name = true) ∨
        (∃ filt ∈ descFilters, filt e.description = true)) ∧
    (∀ c ∈ currencyChars, e.description.toList.contains c = true → IsBadEvent e = true) := by
  refine ⟨rfl, ?_, ?_⟩
  · simp [IsBadEvent, List.any_eq_true]
  · intro c hc hcon
    have hcur : (fun s => currencyChars.any (fun ch => s.toList.contains ch)) e.description = true := by
      exact List.any_eq_true.mpr ⟨c, hc, hcon⟩
    have hdesc : descFilters.any (fun filt => filt e.description) = true :=
      List.any_eq_true.mpr
        ⟨fun s => currencyChars.any (fun ch => s.toList.contains ch), by simp [descFilters], hcur⟩
    simp [IsBadEvent, hdesc]

/-- Witness for C9 at a concrete event: a description holding a dollar
sign is classified bad. -/
theorem IsBadEvent_pure_first_match_currency_witness :
    IsBadEvent ⟨"1", "picnic", "entry costs $5", 0, 60, false⟩ = true :=
  (IsBadEvent_pure_first_match_currency ⟨"1", "picnic", "entry costs $5", 0, 60, false⟩).2.2
    '$' (by decide) (by decide)

/-- C7: `EventSubmit` rejects an anonymous caller with a
`Permission`-kinded error, and a batch of more than 50 ids with an
`Invalid`-kinded error; in the oversized case nothing else has
happened — no retry-loop action and no store mutation — and the
outcome does not depend on the credential, Facebook, store or context
oracles at all. -/
theorem EventSubmit_validation (o : SubmitOracles) (ctxErr : Nat → GoErr)
    (jitter : Nat → ℚ) (actorID : String) (eventIDs : List String) :
    (actorID = "" →
      EventSubmit o ctxErr jitter actorID eventIDs =
        (GoErr.dom "" "Service.EventSubmit" .Permission .nil, [], []) ∧
      Is .Permission (EventSubmit o ctxErr jitter actorID eventIDs).1 = true) ∧
    (actorID ≠ "" → eventIDs.length > 50 →
      EventSubmit o ctxErr jitter actorID eventIDs =
        (GoErr.dom actorID "Service.EventSubmit" .Invalid
          (.str ("event list length (" ++ toString eventIDs.length ++ ") > max (50)")),
          [], []) ∧
      Is .Invalid (EventSubmit o ctxErr jitter actorID eventIDs).1 = true ∧
      (∀ o2 ctxErr2 jitter2,
        EventSubmit o2 ctxErr2 jitter2 actorID eventIDs =
          EventSubmit o ctxErr jitter actorID eventIDs)) := by
  constructor
  · intro h
    subst h
    constructor
    · rfl
    · rfl
  · intro h1 h2
    have hsz : decide (eventIDs.length > 50) = true := by simp [h2]
    refine ⟨?_, ?_, ?_⟩
    · simp [EventSubmit, h1, h2, E, buildEState, applyEArg]
    · simp [EventSubmit, h1, h2, E, buildEState, applyEArg, Is]
    · intro o2 c2 j2
      simp [EventSubmit, h1, h2]

/-- Witness for C7: an anonymous call and an oversized batch, both at
concrete inputs. -/
theorem EventSubmit_validation_witness :
    Is .Permission (EventSubmit expiredOracles (fun _ => .nil) (fun _ => 0) "" ["1"]).1 = true ∧
    Is .Invalid (EventSubmit expiredOracles (fun _ => .nil) (fun _ => 0) "u"
      (List.replicate 51 "1")).1 = true := by
  constructor
  · exact ((EventSubmit_validation expiredOracles (fun _ => .nil) (fun _ => 0) "" ["1"]).1
      rfl).2
  · exact ((EventSubmit_validation expiredOracles (fun _ => .nil) (fun _ => 0) "u"
      (List.replicate 51 "1")).2 (by decide) (by decide)).2.1

/-- C8: when `errors.E` builds an error whose cause is itself a
`*Error`: a repeated acting-user identifier is cleared on the inner
error (and an unequal one is kept); a repeated kind demotes the inner
one to `Other`; a new error whose kind is `Other` adopts the inner
kind, demoting the inner one; the outer kind stays authoritative when
set; and constructing with the same (set) kind at two levels leaves
`Is` reporting exactly that single kind. -/
theorem E_cause_normalization (args : List EArg) (pu po : String) (pk : Kind) (pc : GoErr)
    (h : (buildEState args).err = GoErr.dom pu po pk pc) :
    (pu = (buildEState args).userID → errUserID (errCause (E args)) = "") ∧
    (pu ≠ (buildEState args).userID → errUserID (errCause (E args)) = pu) ∧
    (pk = (buildEState args).kind → errKind (errCause (E args)) = Kind.Other) ∧
    ((buildEState args).kind = Kind.Other →
      errKind (E args) = pk ∧ errKind (errCause (E args)) = Kind.Other) ∧
    ((buildEState args).kind ≠ Kind.Other → errKind (E args) = (buildEState args).kind) ∧
    (pk = (buildEState args).kind ∧ (buildEState args).kind ≠ Kind.Other →
      ∀ k2, Is k2 (E args) = decide ((buildEState args).kind = k2)) := by
  have hE : E args =
      (if (buildEState args).kind = Kind.Other then
        GoErr.dom (buildEState args).userID (buildEState args).op
          (if pk = (buildEState args).kind then Kind.Other else pk)
          (GoErr.dom (if pu = (buildEState args).userID then "" else pu) po Kind.Other pc)
      else
        GoErr.dom (buildEState args).userID (buildEState args).op (buildEState args).kind
          (GoErr.dom (if pu = (buildEState args).userID then "" else pu) po
            (if pk = (buildEState args).kind then Kind.Other else pk) pc)) := by
    simp only [E, h]
  by_cases hko : (buildEState args).kind = Kind.Other
  · rw [if_pos hko] at hE
    refine ⟨?_, ?_, ?_, ?_, ?_, ?_⟩
    · intro hu; rw [hE]; simp [errCause, errUserID, hu]
    · intro hu; rw [hE]; simp [errCause, errUserID, hu]
    · intro hk; rw [hE]; simp [errCause, errKind]
    · intro _
      constructor
      · rw [hE]
        by_cases hpk : pk = (buildEState args).kind
        · simp [errKind, hpk, hko]
        · simp [errKind, hpk]
      · rw [hE]; simp [errCause, errKind]
    · intro hne; exact absurd hko hne
    · rintro ⟨-, hne⟩; exact absurd hko hne
  · rw [if_neg hko] at hE
    refine ⟨?_, ?_, ?_, ?_, ?_, ?_⟩
    · intro hu; rw [hE]; simp [errCause, errUserID, hu]
    · intro hu; rw [hE]; simp [errCause, errUserID, hu]
    · intro hk; rw [hE]; simp [errCause, errKind, hk]
    · intro hk; exact absurd hk hko
    · intro _; rw [hE]; simp [errKind]
    · rintro ⟨-, -⟩
      intro k2
      rw [hE]
      simp [Is, hko]

/-- Witness for C8: a concrete two-level construction with the same
kind (`Internal`) and the same user at both levels: the inner copy
loses both, and `Is` reports `Internal` once. -/
theorem E_cause_normalization_witness :
    errUserID (errCause (E [.op "Service.DestGenerate", .kind .Internal, .user "u7",
      .err (GoErr.dom "u7" "Service.nextEvent" .Internal .nil)])) = "" ∧
    errKind (errCause (E [.op "Service.DestGenerate", .kind .Internal, .user "u7",
      .err (GoErr.dom "u7" "Service.nextEvent" .Internal .nil)])) = Kind.Other ∧
    Is .Internal (E [.op "Service.DestGenerate", .kind .Internal, .user "u7",
      .err (GoErr.dom "u7" "Service.nextEvent" .Internal .nil)]) = true := by
  have h := E_cause_normalization
    [.op "Service.DestGenerate", .kind .Internal, .user "u7",
      .err (GoErr.dom "u7" "Service.nextEvent" .Internal .nil)]
    "u7" "Service.nextEvent" .Internal .nil rfl
  refine ⟨h.1 rfl, h.2.2.1 rfl, ?_⟩
  rw [h.2.2.2.2.2 ⟨rfl, by decide⟩ .Internal]
  decide

/-- Invariant of the argument fold of the pointer-level `errors.E`:
the heap only grows, every entry below the original length `n` is
untouched, and whenever the in-progress `err` field holds a `*Error`
pointer, that pointer addresses a freshly allocated copy (at or past
`n`). -/
theorem applyHArg_foldl_frame (args : List HArg) (n : Nat) :
    ∀ (e : EStateH) (h1 : EHeapMem), n ≤ h1.length →
      (∀ q, e.err = some (Sum.inl q) → n ≤ q) →
      n ≤ (args.foldl applyHArg (e, h1)).2.length ∧
      (∀ p, p < n → ((args.foldl applyHArg (e, h1)).2)[p]? = h1[p]?) ∧
      (∀ q, (args.foldl applyHArg (e, h1)).1.err = some (Sum.inl q) → n ≤ q) := by
  induction args with
  | nil => exact fun e h1 hlen herr => ⟨hlen, fun p _ => rfl, herr⟩
  | cons a rest ih =>
    intro e h1 hlen herr
    rw [List.foldl_cons]
    cases a with
    | user u => exact ih _ _ hlen herr
    | op o => exact ih _ _ hlen herr
    | str s => exact ih _ _ hlen (by intro q hq; simp [applyHArg] at hq)
    | kind k => exact ih _ _ hlen herr
    | errOther s => exact ih _ _ hlen (by intro q hq; simp [applyHArg] at hq)
    | errDom p =>
      have hstep : applyHArg (e, h1) (HArg.errDom p) =
          ({ e with err := some (Sum.inl h1.length) }, h1 ++ [h1.getD p default]) := rfl
      rw [hstep]
      have hlen2 : n ≤ (h1 ++ [h1.getD p default]).length := by
        simp only [List.length_append, List.length_cons, List.length_nil]
        omega
      have herr2 : ∀ q, ({ e with err := some (Sum.inl h1.length) } : EStateH).err =
          some (Sum.inl q) → n ≤ q := by
        intro q hq
        simp only [Option.some.injEq, Sum.inl.injEq] at hq
        omega
      obtain ⟨ha, hb, hc⟩ := ih _ _ hlen2 herr2
      refine ⟨ha, ?_, hc⟩
      intro p2 hp2
      rw [hb p2 hp2, List.getElem?_append]
      simp only [if_pos (by omega : p2 < h1.length)]

/-- C10: the pointer-level `errors.E` never mutates any pre-existing
heap node — in particular not the `*Error` passed as its cause, which
it copies before the normalization adjusts the inner kind and user
fields.  Every address below the original heap length reads the same
after the call as before. -/
theorem EHeap_frame (args : List HArg) (h : EHeapMem) (p : Nat) (hp : p < h.length) :
    ((EHeap args h).2)[p]? = h[p]? := by
  obtain ⟨hlen, hpre, herr⟩ :=
    applyHArg_foldl_frame args h.length ⟨"", "", Kind.Other, none⟩ h le_rfl (by simp)
  unfold EHeap
  rcases hfold : args.foldl applyHArg (⟨"", "", Kind.Other, none⟩, h) with ⟨e, h1⟩
  rw [hfold] at hlen hpre herr
  simp only at hlen hpre herr ⊢
  rcases he : e.err with - | ⟨q | s⟩
  · rw [List.getElem?_append]
    simp only [if_pos (by omega : p < h1.length)]
    exact hpre p hp
  · have hq : h.length ≤ q := herr q he
    rw [List.getElem?_append]
    simp only [List.length_set, if_pos (by omega : p < h1.length)]
    rw [List.getElem?_set_ne (by omega : q ≠ p)]
    exact hpre p hp
  · rw [List.getElem?_append]
    simp only [if_pos (by omega : p < h1.length)]
    exact hpre p hp

/-- Witness for C10 at a concrete heap: a single pre-existing node
used as the cause of a new `Internal` error keeps its fields. -/
theorem EHeap_frame_witness :
    ((EHeap [.op "Service.DestGenerate", .kind .Internal, .errDom 0]
        [⟨"u7", "Service.nextEvent", Kind.Internal, none⟩]).2)[0]? =
      some ⟨"u7", "Service.nextEvent", Kind.Internal, none⟩ := by
  rw [EHeap_frame [.op "Service.DestGenerate", .kind .Internal, .errDom 0]
    [⟨"u7", "Service.nextEvent", Kind.Internal, none⟩] 0 (by decide)]
  rfl

/-- Behaviour of `retry` when the ambient context has already been cancelled at the
opening check: the context error comes back at once, after nothing but
that check. -/
theorem retry_ctx_fired (ctxErr : Nat → GoErr) (jitter : Nat → ℚ)
    (f : Nat → GoErr × List Effect) (retries k : Nat) (hc : ctxErr k ≠ .nil) :
    retry ctxErr jitter f retries k = (ctxErr k, [RAction.check], []) := by
  rw [retry]
  simp [hc]

/-- Behaviour of `retry` when the context is live and the attempt succeeds. -/
theorem retry_attempt_ok (ctxErr : Nat → GoErr) (jitter : Nat → ℚ)
    (f : Nat → GoErr × List Effect) (retries k : Nat)
    (hc : ctxErr k = .nil) (hf : (f k).1 = .nil) :
    retry ctxErr jitter f retries k = (.nil, [RAction.check, RAction.attempt], (f k).2) := by
  rw [retry]
  cases retries <;> simp [hc, hf]

/-- Behaviour of `retry` when the attempt fails with no retries left. -/
theorem retry_fail_zero (ctxErr : Nat → GoErr) (jitter : Nat → ℚ)
    (f : Nat → GoErr × List Effect) (k : Nat)
    (hc : ctxErr k = .nil) (hf : (f k).1 ≠ .nil) :
    retry ctxErr jitter f 0 k = ((f k).1, [RAction.check, RAction.attempt], (f k).2) := by
  rw [retry]
  simp [hc, hf]

/-- Behaviour of `retry` when the attempt fails with retries left: decrement, sleep
`2^remaining + jitter` seconds, and loop. -/
theorem retry_fail_succ (ctxErr : Nat → GoErr) (jitter : Nat → ℚ)
    (f : Nat → GoErr × List Effect) (r k : Nat)
    (hc : ctxErr k = .nil) (hf : (f k).1 ≠ .nil) :
    retry ctxErr jitter f (r + 1) k =
      ((retry ctxErr jitter f r (k + 1)).1,
        RAction.check :: RAction.attempt :: RAction.sleep (2 ^ r + jitter k) ::
          (retry ctxErr jitter f r (k + 1)).2.1,
        (f k).2 ++ (retry ctxErr jitter f r (k + 1)).2.2) := by
  rw [retry]
  simp [hc, hf]

/-- The one-action trace `[check]` holds no attempt. -/
theorem trace1_no_attempt (i : Nat)
    (hi : ([RAction.check] : List RAction)[i]? = some RAction.attempt) : False := by
  cases i with
  | zero => simp at hi
  | succ n => simp at hi

/-- The one-action trace `[check]` holds no sleep. -/
theorem trace1_no_sleep (i : Nat) (d : ℚ)
    (hi : ([RAction.check] : List RAction)[i]? = some (RAction.sleep d)) : False := by
  cases i with
  | zero => simp at hi
  | succ n => simp at hi

/-- In the trace `[check, attempt]` the attempt is preceded by the
check. -/
theorem trace2_attempt (i : Nat)
    (hi : ([RAction.check, RAction.attempt] : List RAction)[i]? = some RAction.attempt) :
    ([RAction.check, RAction.attempt] : List RAction)[i - 1]? = some RAction.check := by
  cases i with
  | zero => simp at hi
  | succ n =>
    cases n with
    | zero => rfl
    | succ m => simp at hi

/-- The trace `[check, attempt]` holds no sleep. -/
theorem trace2_no_sleep (i : Nat) (d : ℚ)
    (hi : ([RAction.check, RAction.attempt] : List RAction)[i]? = some (RAction.sleep d)) :
    False := by
  cases i with
  | zero => simp at hi
  | succ n =>
    cases n with
    | zero => simp at hi
    | succ m => simp at hi

/-- Counting attempts through one failed iteration's actions. -/
theorem countAttempts_cons3 (d : ℚ) (l : List RAction) :
    countAttempts (RAction.check :: RAction.attempt :: RAction.sleep d :: l) =
      countAttempts l + 1 := by
  simp [countAttempts, List.countP_cons]

/-- C5: the `retry` loop makes at most `retries + 1` attempts (so 4
when the ingestion pipeline calls it with 3); every trace starts with a
context check; every attempt is immediately preceded by a check and
every sleep by a check-then-attempt pair (so the signal is checked
before each attempt and before each sleep, with no intervening sleep);
a context signal observed at the opening check aborts at once — the
context error is returned after that single check, with no attempt and
no sleep; and the `i`-th sleep lasts `2 ^ (retries - 1 - i) + jitter`
seconds. -/
theorem retry_backoff_spec (ctxErr : Nat → GoErr) (jitter : Nat → ℚ)
    (f : Nat → GoErr × List Effect) (retries k : Nat) :
    ((retry ctxErr jitter f retries k).2.1)[0]? = some RAction.check ∧
    countAttempts (retry ctxErr jitter f retries k).2.1 ≤ retries + 1 ∧
    (∀ i, ((retry ctxErr jitter f retries k).2.1)[i]? = some RAction.attempt →
      ((retry ctxErr jitter f retries k).2.1)[i - 1]? = some RAction.check) ∧
    (∀ i d, ((retry ctxErr jitter f retries k).2.1)[i]? = some (RAction.sleep d) →
      2 ≤ i ∧ ((retry ctxErr jitter f retries k).2.1)[i - 1]? = some RAction.attempt ∧
        ((retry ctxErr jitter f retries k).2.1)[i - 2]? = some RAction.check) ∧
    (ctxErr k ≠ .nil → retry ctxErr jitter f retries k = (ctxErr k, [RAction.check], [])) ∧
    (∀ i d, (sleepSeconds (retry ctxErr jitter f retries k).2.1)[i]? = some d →
      d = 2 ^ (retries - 1 - i) + jitter (k + i)) := by
  induction retries generalizing k with
  | zero =>
    by_cases hc : ctxErr k = .nil
    · by_cases hf : (f k).1 = .nil
      · rw [retry_attempt_ok ctxErr jitter f 0 k hc hf]
        refine ⟨rfl, by simp [countAttempts], fun i hi => trace2_attempt i hi,
          fun i d hi => absurd hi (by intro hi2; exact trace2_no_sleep i d hi2),
          fun hcn => absurd hc hcn, ?_⟩
        intro i d hi
        simp [sleepSeconds] at hi
      · rw [retry_fail_zero ctxErr jitter f k hc hf]
        refine ⟨rfl, by simp [countAttempts], fun i hi => trace2_attempt i hi,
          fun i d hi => absurd hi (by intro hi2; exact trace2_no_sleep i d hi2),
          fun hcn => absurd hc hcn, ?_⟩
        intro i d hi
        simp [sleepSeconds] at hi
    · rw [retry_ctx_fired ctxErr jitter f 0 k hc]
      refine ⟨rfl, by simp [countAttempts], fun i hi => absurd (trace1_no_attempt i hi) id,
        fun i d hi => absurd (trace1_no_sleep i d hi) id, fun _ => rfl, ?_⟩
      intro i d hi
      simp [sleepSeconds] at hi
  | succ r ih =>
    by_cases hc : ctxErr k = .nil
    · by_cases hf : (f k).1 = .nil
      · rw [retry_attempt_ok ctxErr jitter f (r + 1) k hc hf]
        refine ⟨rfl, by simp [countAttempts], fun i hi => trace2_attempt i hi,
          fun i d hi => absurd hi (by intro hi2; exact trace2_no_sleep i d hi2),
          fun hcn => absurd hc hcn, ?_⟩
        intro i d hi
        simp [sleepSeconds] at hi
      · obtain ⟨ihHead, ihCount, ihAtt, ihSleep, ihCtx, ihDur⟩ := ih (k + 1)
        rw [retry_fail_succ ctxErr jitter f r k hc hf]
        refine ⟨rfl, ?_, ?_, ?_, fun hcn => absurd hc hcn, ?_⟩
        · rw [countAttempts_cons3]
          omega
        · intro i hi
          cases i with
          | zero => simp at hi
          | succ n =>
            cases n with
            | zero => rfl
            | succ m =>
              cases m with
              | zero => simp at hi
              | succ j =>
                simp only [List.getElem?_cons_succ] at hi ⊢
                have h2 := ihAtt j hi
                cases j with
                | zero =>
                  rw [ihHead] at hi
                  simp at hi
                | succ j2 =>
                  simpa using h2
        · intro i d hi
          cases i with
          | zero => simp at hi
          | succ n =>
            cases n with
            | zero => simp at hi
            | succ m =>
              cases m with
              | zero =>
                refine ⟨by omega, rfl, rfl⟩
              | succ j =>
                simp only [List.getElem?_cons_succ] at hi
                obtain ⟨hj2, hj3, hj4⟩ := ihSleep j d hi
                obtain ⟨m2, rfl⟩ : ∃ m2, j = m2 + 2 := ⟨j - 2, by omega⟩
                refine ⟨by omega, ?_, ?_⟩
                · simpa using hj3
                · simpa using hj4
        · intro i d hi
          cases i with
          | zero =>
            simp only [sleepSeconds, List.getElem?_cons_zero, Option.some.injEq] at hi
            subst hi
            simp
          | succ n =>
            simp only [sleepSeconds, List.getElem?_cons_succ] at hi
            have := ihDur n d hi
            have he : r + 1 - 1 - (n + 1) = r - 1 - n := by omega
            have ha : k + (n + 1) = k + 1 + n := by omega
            rw [he, ha]
            exact this
    · rw [retry_ctx_fired ctxErr jitter f (r + 1) k hc]
      refine ⟨rfl, by simp [countAttempts], fun i hi => absurd (trace1_no_attempt i hi) id,
        fun i d hi => absurd (trace1_no_sleep i d hi) id, fun _ => rfl, ?_⟩
      intro i d hi
      simp [sleepSeconds] at hi

/-- Witness for C5: with a live context and an always-failing attempt,
`retry … 3` (the ingestion pipeline's configuration) makes exactly 4
attempts and sleeps 4, 2 and 1 (+jitter 0) seconds; and with a fired
context it stops at the first check. -/
theorem retry_backoff_spec_witness :
    countAttempts (retry (fun _ => .nil) (fun _ => 0)
      (fun _ => (GoErr.str "boom", [])) 3 0).2.1 ≤ 4 ∧
    retry (fun _ => GoErr.str "context canceled") (fun _ => 0)
      (fun _ => (GoErr.str "boom", [])) 3 0 =
      (GoErr.str "context canceled", [RAction.check], []) := by
  constructor
  · exact (retry_backoff_spec (fun _ => .nil) (fun _ => 0)
      (fun _ => (GoErr.str "boom", [])) 3 0).2.1
  · exact (retry_backoff_spec (fun _ => GoErr.str "context canceled") (fun _ => 0)
      (fun _ => (GoErr.str "boom", [])) 3 0).2.2.2.2.1 (by decide)

/-- Counterexample to C6 as stated: with the expired-credential
oracles the attempt does clear the fetcher's stored token, but the
error it fails with is `errors.E(op, userID, "facebook token expired")`
— no `Internal` argument — so its kind is `Other` and neither the
attempt error nor the whole call's wrapped error matches `Internal`. -/
theorem eventSubmitAttempt_expired_counterexample :
    eventSubmitAttempt expiredOracles "u7" ["1"] 0 =
      (GoErr.dom "u7" "Service.EventSubmit" .Other (.str "facebook token expired"),
        [.clearToken "fetcher"]) ∧
    Is .Internal (eventSubmitAttempt expiredOracles "u7" ["1"] 0).1 = false ∧
    Is .Internal (EventSubmit expiredOracles (fun _ => .nil) (fun _ => 0) "u7" ["1"]).1 = false := by
  refine ⟨rfl, rfl, rfl⟩

/-- C6 (amended): when the external source reports the acquired
credential as expired during a `Submit` attempt, the pipeline clears
that credential from its owning user record and fails the attempt with
an error whose kind is left unset (`Other`, not `Internal`); the retry
loop then moves on to the next attempt, which acquires a credential
afresh. -/
theorem eventSubmitAttempt_expired_amended (o : SubmitOracles) (userID : String)
    (eventIDs : List String) (k : Nat) (fetcherID oauthToken : String)
    (h1 : o.randomFBToken k = .ok (fetcherID, oauthToken))
    (h2 : IsTokenExpired (match o.getEventInfo oauthToken eventIDs with
      | .error e => e | .ok _ => .nil) = true)
    (h3 : o.updateUser fetcherID = .ok ()) :
    eventSubmitAttempt o userID eventIDs k =
      (GoErr.dom userID "Service.EventSubmit" .Other (.str "facebook token expired"),
        [.clearToken fetcherID]) ∧
    Is .Internal (eventSubmitAttempt o userID eventIDs k).1 = false ∧
    errKind (eventSubmitAttempt o userID eventIDs k).1 = Kind.Other := by
  have hstep : eventSubmitAttempt o userID eventIDs k =
      (GoErr.dom userID "Service.EventSubmit" .Other (.str "facebook token expired"),
        [.clearToken fetcherID]) := by
    unfold eventSubmitAttempt
    rw [h1]
    simp only [h2, if_true, h3]
    rfl
  exact ⟨hstep, by rw [hstep]; rfl, by rw [hstep]; rfl⟩

/-- Witness for C6 (amended) at the concrete expired-credential
oracles. -/
theorem eventSubmitAttempt_expired_amended_witness :
    eventSubmitAttempt expiredOracles "u9" ["1", "2"] 0 =
      (GoErr.dom "u9" "Service.EventSubmit" .Other (.str "facebook token expired"),
        [.clearToken "fetcher"]) :=
  (eventSubmitAttempt_expired_amended expiredOracles "u9" ["1", "2"] 0 "fetcher" "tok"
    rfl rfl rfl).1

/-- The window loop issues at most `(2970 - (searchTime - now)) / 90`
store queries — 32 from its actual start `now + 10`. -/
theorem nextEventLoop_calls_le (search : Int → Int → Except GoErr (List Event))
    (alreadyChosen : List Dest) (rng : Nat → Nat) (userID : String) (now : Int) :
    ∀ searchTime,
      (nextEventLoop search alreadyChosen rng userID now searchTime).searchCalls ≤
        ((2970 : Int) - (searchTime - now)).toNat / 90 := by
  intro searchTime
  induction searchTime using nextEventLoop.induct search alreadyChosen rng userID now with
  | case1 st h =>
    rw [nextEventLoop]
    simp [h]
  | case2 st h x hx hni =>
    rw [nextEventLoop]
    simp [h, hx, hni]
    omega
  | case3 st h x hx hni =>
    rw [nextEventLoop]
    simp [h, hx, hni]
    omega
  | case4 st h x hx he hemp ih =>
    rw [nextEventLoop]
    have hemp2 : (List.filter (fun event => !filteredOut alreadyChosen now event) x).isEmpty
        = true := hemp
    simp only [dif_neg h, hx, hemp2, if_true]
    omega
  | case5 st h x hx he hne =>
    rw [nextEventLoop]
    have hne2 : ¬(List.filter (fun event => !filteredOut alreadyChosen now event) x).isEmpty
        = true := hne
    simp [h, hx, hne2]
    omega

/-- When every reachable window is empty of surviving candidates (and
any search failure is a `NotExist`), the window loop ends with
`GenerateNoResults`. -/
theorem nextEventLoop_noResults (search : Int → Int → Except GoErr (List Event))
    (alreadyChosen : List Dest) (rng : Nat → Nat) (userID : String) (now : Int)
    (h1 : ∀ st l, search st (st + 90) = .ok l →
      l.filter (fun event => !filteredOut alreadyChosen now event) = [])
    (h2 : ∀ st e2, search st (st + 90) = .error e2 → Is .NotExist e2 = true) :
    ∀ searchTime,
      (nextEventLoop search alreadyChosen rng userID now searchTime).result =
        .GenerateNoResults := by
  intro searchTime
  induction searchTime using nextEventLoop.induct search alreadyChosen rng userID now with
  | case1 st h =>
    rw [nextEventLoop]
    simp [h]
  | case2 st h x hx hni =>
    rw [nextEventLoop]
    simp [h, hx, hni]
  | case3 st h x hx hni => exact absurd (h2 st x hx) hni
  | case4 st h x hx he hemp ih =>
    rw [nextEventLoop]
    have hemp2 : (List.filter (fun event => !filteredOut alreadyChosen now event) x).isEmpty
        = true := hemp
    simp only [dif_neg h, hx, hemp2, if_true]
    exact ih
  | case5 st h x hx he hne =>
    have : (List.filter (fun event => !filteredOut alreadyChosen now event) x).isEmpty
        = true := by
      rw [h1 st x hx]
      rfl
    exact absurd this hne

/-- An event picked by index from the filtered candidate list is a
searched event that is neither already chosen nor ending before the
arrival time `now + 30`. -/
theorem pick_filter_sound (alreadyChosen : List Dest) (now : Int) (x : List Event) (idx : Nat)
    (hidx : idx < (List.filter (fun event => !filteredOut alreadyChosen now event) x).length) :
    ∃ e ∈ x,
      e.id = ((List.filter (fun event => !filteredOut alreadyChosen now event) x).getD idx
        default).id ∧
      (∀ c ∈ alreadyChosen, c.eventID ≠ e.id) ∧ now + 30 ≤ e.endTime := by
  have hgetD : (List.filter (fun event => !filteredOut alreadyChosen now event) x).getD idx
      default = (List.filter (fun event => !filteredOut alreadyChosen now event) x)[idx] := by
    simp [List.getD_eq_getElem?_getD, List.getElem?_eq_getElem hidx]
  have hmem := List.getElem_mem hidx
  rw [hgetD]
  revert hmem
  generalize (List.filter (fun event => !filteredOut alreadyChosen now event) x)[idx] = ev
  intro hmem
  rw [List.mem_filter] at hmem
  obtain ⟨hmx, hpred⟩ := hmem
  have hfo : filteredOut alreadyChosen now ev = false := by simpa using hpred
  simp only [filteredOut, Bool.or_eq_false_iff] at hfo
  refine ⟨ev, hmx, rfl, ?_, ?_⟩
  · intro c hc heq
    have hany := hfo.1
    rw [List.any_eq_false] at hany
    have hb := hany c hc
    rw [heq] at hb
    simp at hb
  · have hend := hfo.2
    simp only [decide_eq_false_iff_not, not_lt] at hend
    exact hend

/-- Soundness of a `GenerateOK` pick: the chosen id names an event
returned by some window query that survived the candidate filter — so
its id is not among the caller's destinations and its end time is at or
after `now + 30`. -/
theorem nextEventLoop_ok_sound (search : Int → Int → Except GoErr (List Event))
    (alreadyChosen : List Dest) (rng : Nat → Nat) (userID : String) (now : Int)
    (hrng : ∀ n, 0 < n → rng n < n) :
    ∀ searchTime,
      (nextEventLoop search alreadyChosen rng userID now searchTime).result = .GenerateOK →
      ∃ stw l e, search stw (stw + 90) = .ok l ∧ e ∈ l ∧
        e.id = (nextEventLoop search alreadyChosen rng userID now searchTime).chosenID ∧
        (∀ c ∈ alreadyChosen, c.eventID ≠ e.id) ∧ now + 30 ≤ e.endTime := by
  intro searchTime
  induction searchTime using nextEventLoop.induct search alreadyChosen rng userID now with
  | case1 st h =>
    rw [nextEventLoop]
    simp [h]
  | case2 st h x hx hni =>
    rw [nextEventLoop]
    simp [h, hx, hni]
  | case3 st h x hx hni =>
    rw [nextEventLoop]
    simp [h, hx, hni]
  | case4 st h x hx he hemp ih =>
    rw [nextEventLoop]
    have hemp2 : (List.filter (fun event => !filteredOut alreadyChosen now event) x).isEmpty
        = true := hemp
    simp only [dif_neg h, hx, hemp2, if_true]
    exact ih
  | case5 st h x hx he hne =>
    rw [nextEventLoop]
    have hne2 : ¬(List.filter (fun event => !filteredOut alreadyChosen now event) x).isEmpty
        = true := hne
    simp only [dif_neg h, hx, hne2, Bool.false_eq_true, if_false]
    intro _
    have hlen : 0 < (List.filter (fun event => !filteredOut alreadyChosen now event) x).length := by
      rcases Nat.eq_zero_or_pos
        (List.filter (fun event => !filteredOut alreadyChosen now event) x).length with hz | hp
      · exact absurd (by simpa [List.isEmpty_iff_length_eq_zero] using hz) hne2
      · exact hp
    obtain ⟨e, hmx, hid, hded, hfe⟩ := pick_filter_sound alreadyChosen now x _ (hrng _ hlen)
    exact ⟨st, x, e, hx, hmx, hid, hded, hfe⟩

/-- If the window queries come back empty (of surviving candidates) up
to iteration `j`, whose query fails with a non-`NotExist` error inside
the 48-hour horizon, the loop stops with `GenerateError` and the error
wrapped exactly as in the source. -/
theorem nextEventLoop_error_of_fail (search : Int → Int → Except GoErr (List Event))
    (alreadyChosen : List Dest) (rng : Nat → Nat) (userID : String) (now : Int) :
    ∀ (j : Nat) (st : Int) (e2 : GoErr),
      (∀ i : Nat, i < j → ∃ l, search (st + 90 * (i : Int)) (st + 90 * (i : Int) + 90) = .ok l ∧
        l.filter (fun event => !filteredOut alreadyChosen now event) = []) →
      search (st + 90 * (j : Int)) (st + 90 * (j : Int) + 90) = .error e2 →
      Is .NotExist e2 = false →
      st + 90 * (j : Int) - now ≤ 2880 →
      (nextEventLoop search alreadyChosen rng userID now st).result = .GenerateError ∧
      (nextEventLoop search alreadyChosen rng userID now st).err =
        E [.op "Service.nextEvent", .user userID, .str "search failed", .err e2] := by
  intro j
  induction j with
  | zero =>
    intro st e2 _ hfail hni hbound
    have hguard : ¬(st - now > 2880) := by
      push_cast at hbound
      omega
    have hfail0 : search st (st + 90) = .error e2 := by
      have : st + 90 * ((0 : Nat) : Int) = st := by push_cast; ring
      rwa [this] at hfail
    rw [nextEventLoop]
    have hni2 : ¬(Is .NotExist e2 = true) := by simp [hni]
    simp [hguard, hfail0, hni2]
  | succ n ih =>
    intro st e2 hearlier hfail hni hbound
    have hguard : ¬(st - now > 2880) := by
      push_cast at hbound
      omega
    obtain ⟨l0, hl0, hl0f⟩ := hearlier 0 (Nat.succ_pos n)
    have hl0' : search st (st + 90) = .ok l0 := by
      have : st + 90 * ((0 : Nat) : Int) = st := by push_cast; ring
      rwa [this] at hl0
    have hstep := ih (st + 90) e2
      (by
        intro i hi
        obtain ⟨l, hl, hlf⟩ := hearlier (i + 1) (by omega)
        refine ⟨l, ?_, hlf⟩
        have : st + 90 * ((i + 1 : Nat) : Int) = st + 90 + 90 * (i : Int) := by
          push_cast; ring
        rwa [this] at hl)
      (by
        have : st + 90 * ((n + 1 : Nat) : Int) = st + 90 + 90 * (n : Int) := by
          push_cast; ring
        rwa [this] at hfail)
      hni
      (by
        have : st + 90 * ((n + 1 : Nat) : Int) = st + 90 + 90 * (n : Int) := by
          push_cast; ring
        rw [this] at hbound
        omega)
    rw [nextEventLoop]
    have hemp : (List.filter (fun event => !filteredOut alreadyChosen now event) l0).isEmpty
        = true := by
      rw [hl0f]
      rfl
    simp only [dif_neg hguard, hl0', hemp, if_true]
    exact hstep

/-- Reduction of `Service.nextEvent`: it returns `GenerateWait` (and nothing else) when
the most recent destination's event has not started yet. -/
theorem nextEvent_wait (store : Store) (rng : Nat → Nat) (userID : String) (now : Int)
    (d : Dest) (ds : List Dest) (ev : Event)
    (hlist : store.listForUser userID = .ok (d :: ds))
    (hgb : store.getByID d.eventID = .ok ev)
    (hst : ev.startTime > now) :
    nextEvent store rng userID now = ⟨"", .GenerateWait, .nil, 0⟩ := by
  unfold nextEvent
  rw [hlist]
  dsimp only
  rw [hgb]
  dsimp only
  rw [if_pos hst]

/-- Reduction of `Service.nextEvent`: it falls through to the window loop when the
caller's history is empty. -/
theorem nextEvent_loop_nil (store : Store) (rng : Nat → Nat) (userID : String) (now : Int)
    (hlist : store.listForUser userID = .ok []) :
    nextEvent store rng userID now =
      nextEventLoop store.search [] rng userID now (now + 10) := by
  unfold nextEvent
  rw [hlist]

/-- Reduction of `Service.nextEvent`: it falls through to the window loop when the most
recent destination's event has already started. -/
theorem nextEvent_loop_started (store : Store) (rng : Nat → Nat) (userID : String) (now : Int)
    (d : Dest) (ds : List Dest) (ev : Event)
    (hlist : store.listForUser userID = .ok (d :: ds))
    (hgb : store.getByID d.eventID = .ok ev)
    (hst : ¬ev.startTime > now) :
    nextEvent store rng userID now =
      nextEventLoop store.search (d :: ds) rng userID now (now + 10) := by
  unfold nextEvent
  rw [hlist]
  dsimp only
  rw [hgb]
  dsimp only
  rw [if_neg hst]

/-- Wrapping any failure as `errors.E(op, Internal, msg, err)` gives an
error whose outermost kind is `Internal`, so `errors.Is(Internal, ·)`
reports it. -/
theorem Is_Internal_E_wrap (o s : String) (w : GoErr) :
    Is .Internal (E [.op o, .kind .Internal, .str s, .err w]) = true := by
  cases w <;> rfl

/-- Counterexample to C1 as stated: with an empty history and a single
searchable event ending exactly at `now + 30` (`now = 0`, end minute
30), `nextEvent` returns `GenerateOK` and chooses that event — whose
end time is *not* strictly after `now + 30`.  The arrival check
`arriveTime.After(event.EndTime)` is strict, so the boundary event
survives the feasibility filter. -/
theorem nextEvent_feasibility_boundary_counterexample :
    (nextEvent boundaryStore (fun _ => 0) "u7" 0).result = .GenerateOK ∧
    (nextEvent boundaryStore (fun _ => 0) "u7" 0).chosenID = "e1" ∧
    (∀ stw l, boundaryStore.search stw (stw + 90) = .ok l →
      ∀ e ∈ l, e.id = "e1" ∧ e.endTime = 0 + 30) ∧
    ¬((0 : Int) + 30 < 0 + 30) := by
  have hred : nextEvent boundaryStore (fun _ => 0) "u7" 0 =
      nextEventLoop boundaryStore.search [] (fun _ => 0) "u7" 0 (0 + 10) :=
    nextEvent_loop_nil boundaryStore (fun _ => 0) "u7" 0 rfl
  have hloop : nextEventLoop boundaryStore.search [] (fun _ => 0) "u7" 0 (0 + 10) =
      ⟨"e1", .GenerateOK, .nil, 1⟩ := by
    rw [nextEventLoop]
    norm_num [boundaryStore, filteredOut]
  refine ⟨by rw [hred, hloop], by rw [hred, hloop], ?_, by norm_num⟩
  intro stw l hl e he
  simp only [boundaryStore, Except.ok.injEq] at hl
  subst hl
  simp only [List.mem_singleton] at he
  subst he
  exact ⟨rfl, rfl⟩

/-- C1 (amended): whenever `nextEvent` returns `GenerateOK`, the chosen
event's identifier is not present in the caller's prior history, and
the chosen event's end time is **at or after** `now + 30` minutes —
each query's results are filtered to exclude every event already in the
history (by identifier) and every event whose end time is strictly
before `now + 30`, before the random pick.  (`rand.Intn`'s contract,
an in-range index, is the `hrng` hypothesis.) -/
theorem nextEvent_ok_dedup_feasible (store : Store) (rng : Nat → Nat) (userID : String)
    (now : Int) (alreadyChosen : List Dest)
    (hrng : ∀ n, 0 < n → rng n < n)
    (hlist : store.listForUser userID = .ok alreadyChosen)
    (hok : (nextEvent store rng userID now).result = .GenerateOK) :
    (∀ c ∈ alreadyChosen, c.eventID ≠ (nextEvent store rng userID now).chosenID) ∧
    ∃ stw l e, store.search stw (stw + 90) = .ok l ∧ e ∈ l ∧
      e.id = (nextEvent store rng userID now).chosenID ∧ now + 30 ≤ e.endTime := by
  have hloop : nextEvent store rng userID now =
      nextEventLoop store.search alreadyChosen rng userID now (now + 10) := by
    cases alreadyChosen with
    | nil => exact nextEvent_loop_nil store rng userID now hlist
    | cons d ds =>
      rcases hgb : store.getByID d.eventID with e2 | ev
      · exfalso
        have herr : (nextEvent store rng userID now).result = .GenerateError := by
          unfold nextEvent
          rw [hlist]
          dsimp only
          rw [hgb]
        rw [hok] at herr
        exact absurd herr (by decide)
      · by_cases hst : ev.startTime > now
        · exfalso
          have hw := nextEvent_wait store rng userID now d ds ev hlist hgb hst
          rw [hw] at hok
          exact absurd hok (by decide)
        · exact nextEvent_loop_started store rng userID now d ds ev hlist hgb hst
  rw [hloop] at hok ⊢
  obtain ⟨stw, l, e, hs, hm, hid, hded, hfe⟩ :=
    nextEventLoop_ok_sound store.search alreadyChosen rng userID now hrng (now + 10) hok
  refine ⟨?_, stw, l, e, hs, hm, hid, hfe⟩
  intro c hc
  rw [← hid]
  exact hded c hc

/-- Witness for C1 (amended): a store whose single event ends at
minute 300 (well past `now + 30`) and a fresh history. -/
theorem nextEvent_ok_dedup_feasible_witness :
    ∃ stw l e, (Store.mk (fun _ => .ok []) (fun _ => .error (.str "no"))
        (fun _ => .ok []) (fun _ _ => .ok [⟨"e2", "show", "fun", 60, 300, false⟩])
        (fun d => .ok d)).search stw (stw + 90) = .ok l ∧ e ∈ l ∧
      e.id = (nextEvent (Store.mk (fun _ => .ok []) (fun _ => .error (.str "no"))
        (fun _ => .ok []) (fun _ _ => .ok [⟨"e2", "show", "fun", 60, 300, false⟩])
        (fun d => .ok d)) (fun _ => 0) "u1" 0).chosenID ∧ (0 : Int) + 30 ≤ e.endTime := by
  have h := nextEvent_ok_dedup_feasible
    (Store.mk (fun _ => .ok []) (fun _ => .error (.str "no"))
      (fun _ => .ok []) (fun _ _ => .ok [⟨"e2", "show", "fun", 60, 300, false⟩])
      (fun d => .ok d))
    (fun _ => 0) "u1" 0 []
    (fun n hn => hn) rfl
    (by
      rw [nextEvent_loop_nil _ _ _ _ rfl]
      rw [nextEventLoop]
      norm_num [filteredOut])
  exact h.2

/-- C4: the search-window loop always terminates (it is a total
function here, recursing on the shrinking gap to the 48-hour horizon):
starting at `now + 10` and advancing 90 minutes per empty window it
issues at most 32 store queries — and so does the whole of
`nextEvent`; and when no feasible candidate exists in any window
within 48 hours of `now` (every query comes back empty after the
filter, or fails as `NotExist`), the loop — and `nextEvent` over an
empty history — returns `GenerateNoResults`. -/
theorem nextEvent_bounded_noResults (store : Store) (alreadyChosen : List Dest)
    (rng : Nat → Nat) (userID : String) (now : Int) :
    (nextEventLoop store.search alreadyChosen rng userID now (now + 10)).searchCalls ≤ 32 ∧
    (nextEvent store rng userID now).searchCalls ≤ 32 ∧
    ((∀ st l, store.search st (st + 90) = .ok l →
        l.filter (fun event => !filteredOut alreadyChosen now event) = []) →
      (∀ st e2, store.search st (st + 90) = .error e2 → Is .NotExist e2 = true) →
      (nextEventLoop store.search alreadyChosen rng userID now (now + 10)).result =
        .GenerateNoResults) ∧
    (store.listForUser userID = .ok [] →
      (∀ st l, store.search st (st + 90) = .ok l →
        l.filter (fun event => !filteredOut ([] : List Dest) now event) = []) →
      (∀ st e2, store.search st (st + 90) = .error e2 → Is .NotExist e2 = true) →
      (nextEvent store rng userID now).result = .GenerateNoResults) := by
  have hbound : ∀ ac : List Dest,
      (nextEventLoop store.search ac rng userID now (now + 10)).searchCalls ≤ 32 := by
    intro ac
    refine le_trans (nextEventLoop_calls_le store.search ac rng userID now (now + 10)) ?_
    omega
  refine ⟨hbound alreadyChosen, ?_, ?_, ?_⟩
  · rcases hl : store.listForUser userID with e2 | ac
    · have : nextEvent store rng userID now =
          ⟨"", .GenerateError,
            E [.op "Service.nextEvent", .user userID, .err e2, .str "list dests"], 0⟩ := by
        unfold nextEvent
        rw [hl]
      rw [this]
      exact Nat.zero_le 32
    · cases ac with
      | nil =>
        rw [nextEvent_loop_nil store rng userID now hl]
        exact hbound []
      | cons d ds =>
        rcases hgb : store.getByID d.eventID with e2 | ev
        · have : nextEvent store rng userID now =
              ⟨"", .GenerateError,
                E [.op "Service.nextEvent", .user userID, .err e2, .str "get last event"], 0⟩ := by
            unfold nextEvent
            rw [hl]
            dsimp only
            rw [hgb]
          rw [this]
          exact Nat.zero_le 32
        · by_cases hst : ev.startTime > now
          · rw [nextEvent_wait store rng userID now d ds ev hl hgb hst]
            exact Nat.zero_le 32
          · rw [nextEvent_loop_started store rng userID now d ds ev hl hgb hst]
            exact hbound (d :: ds)
  · intro h1 h2
    exact nextEventLoop_noResults store.search alreadyChosen rng userID now h1 h2 (now + 10)
  · intro hl h1 h2
    rw [nextEvent_loop_nil store rng userID now hl]
    exact nextEventLoop_noResults store.search [] rng userID now h1 h2 (now + 10)

/-- Witness for C4: over the event-free store every hypothesis holds
and the loop reports `GenerateNoResults` within the query budget. -/
theorem nextEvent_bounded_noResults_witness :
    (nextEvent emptyStore (fun _ => 0) "u1" 0).searchCalls ≤ 32 ∧
    (nextEvent emptyStore (fun _ => 0) "u1" 0).result = .GenerateNoResults := by
  have h := nextEvent_bounded_noResults emptyStore [] (fun _ => 0) "u1" 0
  refine ⟨h.2.1, h.2.2.2 rfl ?_ ?_⟩
  · intro st l hl
    simp only [emptyStore, Except.ok.injEq] at hl
    subst hl
    rfl
  · intro st e2 hl
    simp [emptyStore] at hl

/-- C3: whenever a store call fails during the candidate search —
history listing, last-event lookup, or any window search failing with a
non-`NotExist` error inside the horizon — `nextEvent` returns
`GenerateError` with the error wrapped exactly as in the source, and
`DestGenerate` surfaces any non-nil `nextEvent` error wrapped as an
`Internal`-kinded domain error (with no destination row created). -/
theorem nextEvent_failure_error_internal (store : Store) (rng : Nat → Nat)
    (userID : String) (now : Int) :
    (∀ e2, store.listForUser userID = .error e2 →
      (nextEvent store rng userID now).result = .GenerateError ∧
      (nextEvent store rng userID now).err =
        E [.op "Service.nextEvent", .user userID, .err e2, .str "list dests"]) ∧
    (∀ d ds e2, store.listForUser userID = .ok (d :: ds) →
      store.getByID d.eventID = .error e2 →
      (nextEvent store rng userID now).result = .GenerateError ∧
      (nextEvent store rng userID now).err =
        E [.op "Service.nextEvent", .user userID, .err e2, .str "get last event"]) ∧
    (∀ (alreadyChosen : List Dest) (j : Nat) (st : Int) (e2 : GoErr),
      (∀ i : Nat, i < j →
        ∃ l, store.search (st + 90 * (i : Int)) (st + 90 * (i : Int) + 90) = .ok l ∧
          l.filter (fun event => !filteredOut alreadyChosen now event) = []) →
      store.search (st + 90 * (j : Int)) (st + 90 * (j : Int) + 90) = .error e2 →
      Is .NotExist e2 = false →
      st + 90 * (j : Int) - now ≤ 2880 →
      (nextEventLoop store.search alreadyChosen rng userID now st).result = .GenerateError ∧
      (nextEventLoop store.search alreadyChosen rng userID now st).err =
        E [.op "Service.nextEvent", .user userID, .str "search failed", .err e2]) ∧
    (∀ (j : Nat) (e2 : GoErr),
      store.listForUser userID = .ok [] →
      (∀ i : Nat, i < j →
        ∃ l, store.search (now + 10 + 90 * (i : Int)) (now + 10 + 90 * (i : Int) + 90) = .ok l ∧
          l.filter (fun event => !filteredOut ([] : List Dest) now event) = []) →
      store.search (now + 10 + 90 * (j : Int)) (now + 10 + 90 * (j : Int) + 90) = .error e2 →
      Is .NotExist e2 = false →
      now + 10 + 90 * (j : Int) - now ≤ 2880 →
      (nextEvent store rng userID now).result = .GenerateError ∧
      (nextEvent store rng userID now).err =
        E [.op "Service.nextEvent", .user userID, .str "search failed", .err e2]) ∧
    (∀ (actorID : String) (isAdmin : Bool) (reqUserID : String),
      actorID ≠ "" →
      ¬(resolveUserID actorID reqUserID ≠ actorID ∧ ¬isAdmin) →
      userID = resolveUserID actorID reqUserID →
      (nextEvent store rng userID now).err ≠ .nil →
      ∃ r e3, (DestGenerate store actorID isAdmin reqUserID rng now).1 = .ok (r, e3) ∧
        Is .Internal e3 = true ∧
        (DestGenerate store actorID isAdmin reqUserID rng now).2 = 0) := by
  refine ⟨?_, ?_, ?_, ?_, ?_⟩
  · intro e2 hl
    have : nextEvent store rng userID now =
        ⟨"", .GenerateError,
          E [.op "Service.nextEvent", .user userID, .err e2, .str "list dests"], 0⟩ := by
      unfold nextEvent
      rw [hl]
    rw [this]
    exact ⟨rfl, rfl⟩
  · intro d ds e2 hl hgb
    have : nextEvent store rng userID now =
        ⟨"", .GenerateError,
          E [.op "Service.nextEvent", .user userID, .err e2, .str "get last event"], 0⟩ := by
      unfold nextEvent
      rw [hl]
      dsimp only
      rw [hgb]
    rw [this]
    exact ⟨rfl, rfl⟩
  · intro alreadyChosen j st e2 hearlier hfail hni hbound
    exact nextEventLoop_error_of_fail store.search alreadyChosen rng userID now
      j st e2 hearlier hfail hni hbound
  · intro j e2 hl hearlier hfail hni hbound
    rw [nextEvent_loop_nil store rng userID now hl]
    exact nextEventLoop_error_of_fail store.search [] rng userID now
      j (now + 10) e2 hearlier hfail hni hbound
  · intro actorID isAdmin reqUserID hA hAuth huser hne
    rw [huser] at hne
    unfold DestGenerate
    dsimp only
    rw [if_neg hA, if_neg hAuth, if_pos hne]
    refine ⟨⟨.GenerateOK, [], []⟩,
      E [.op "Service.DestGenerate", .kind .Internal, .str "nextEvent failed",
        .err (nextEvent store rng (resolveUserID actorID reqUserID) now).err],
      rfl, ?_, rfl⟩
    exact Is_Internal_E_wrap "Service.DestGenerate" "nextEvent failed" _

/-- Witness for C3: a store whose history listing fails; the engine
reports `GenerateError` and `DestGenerate` wraps it as `Internal`. -/
theorem nextEvent_failure_error_internal_witness :
    (nextEvent failingListStore (fun _ => 0) "u1" 0).result = .GenerateError ∧
    (∃ r e3, (DestGenerate failingListStore "u1" false "me" (fun _ => 0) 0).1 = .ok (r, e3) ∧
      Is .Internal e3 = true ∧
      (DestGenerate failingListStore "u1" false "me" (fun _ => 0) 0).2 = 0) := by
  have h := nextEvent_failure_error_internal failingListStore (fun _ => 0) "u1" 0
  refine ⟨(h.1 (.str "pq: connection refused") rfl).1, ?_⟩
  exact h.2.2.2.2 "u1" false "me" (by decide) (by simp [resolveUserID]) (by simp [resolveUserID])
    (by decide)

/-- C2: `DestGenerate` records at most one successful
`DestStore.Create` per call; one only happens when `nextEvent` decided
`GenerateOK` (so never on WAIT, NO_RESULTS or ERROR — `Create` is the
only mutating store call on this path); and when the caller's history
is non-empty with its most recent destination's event still unstarted,
the call returns result `GenerateWait` with no row created. -/
theorem destGenerate_wait_frame (store : Store) (actorID : String) (isAdmin : Bool)
    (reqUserID : String) (rng : Nat → Nat) (now : Int) :
    (DestGenerate store actorID isAdmin reqUserID rng now).2 ≤ 1 ∧
    ((DestGenerate store actorID isAdmin reqUserID rng now).2 = 1 →
      (nextEvent store rng (resolveUserID actorID reqUserID) now).result = .GenerateOK) ∧
    (∀ d ds ev,
      actorID ≠ "" →
      ¬(resolveUserID actorID reqUserID ≠ actorID ∧ ¬isAdmin) →
      store.listForUser (resolveUserID actorID reqUserID) = .ok (d :: ds) →
      store.getByID d.eventID = .ok ev →
      ev.startTime > now →
      (∀ dests, DestList store actorID = .ok dests →
        dests.all (fun dest => dest.event.isSome) = true) →
      (∃ r e3, (DestGenerate store actorID isAdmin reqUserID rng now).1 = .ok (r, e3) ∧
        r.result = .GenerateWait) ∧
      (DestGenerate store actorID isAdmin reqUserID rng now).2 = 0) := by
  have hsplit : (DestGenerate store actorID isAdmin reqUserID rng now).2 = 0 ∨
      ((DestGenerate store actorID isAdmin reqUserID rng now).2 = 1 ∧
        (nextEvent store rng (resolveUserID actorID reqUserID) now).result = .GenerateOK) := by
    unfold DestGenerate
    dsimp only
    by_cases h1 : actorID = ""
    · rw [if_pos h1]
      exact Or.inl rfl
    rw [if_neg h1]
    by_cases h2 : resolveUserID actorID reqUserID ≠ actorID ∧ ¬isAdmin
    · rw [if_pos h2]
      exact Or.inl rfl
    rw [if_neg h2]
    by_cases h3 : (nextEvent store rng (resolveUserID actorID reqUserID) now).err ≠ .nil
    · rw [if_pos h3]
      exact Or.inl rfl
    rw [if_neg h3]
    by_cases h4 : (nextEvent store rng (resolveUserID actorID reqUserID) now).result =
        .GenerateOK
    · rw [if_pos h4]
      rcases hc : store.create ⟨"", resolveUserID actorID reqUserID,
          (nextEvent store rng (resolveUserID actorID reqUserID) now).chosenID, none⟩ with e | d2
      · dsimp only
        by_cases h5 : e ≠ GoErr.nil
        · rw [if_pos h5]
          exact Or.inl rfl
        · rw [if_neg h5]
          rcases hdl : DestList store actorID with e4 | dests
          · exact Or.inl rfl
          · dsimp only
            by_cases h6 : dests.all (fun dest => dest.event.isSome) = true
            · rw [if_pos h6]
              exact Or.inl rfl
            · rw [if_neg h6]
              exact Or.inl rfl
      · dsimp only
        rw [if_neg (by simp : ¬(GoErr.nil ≠ GoErr.nil))]
        rcases hdl : DestList store actorID with e4 | dests
        · exact Or.inr ⟨rfl, h4⟩
        · dsimp only
          by_cases h6 : dests.all (fun dest => dest.event.isSome) = true
          · rw [if_pos h6]
            exact Or.inr ⟨rfl, h4⟩
          · rw [if_neg h6]
            exact Or.inr ⟨rfl, h4⟩
    · rw [if_neg h4]
      dsimp only
      rw [if_neg (by simp : ¬(GoErr.nil ≠ GoErr.nil))]
      rcases hdl : DestList store actorID with e4 | dests
      · exact Or.inl rfl
      · dsimp only
        by_cases h6 : dests.all (fun dest => dest.event.isSome) = true
        · rw [if_pos h6]
          exact Or.inl rfl
        · rw [if_neg h6]
          exact Or.inl rfl
  refine ⟨?_, ?_, ?_⟩
  · rcases hsplit with h | ⟨h, -⟩ <;> omega
  · intro hrow
    rcases hsplit with h | ⟨-, h⟩
    · omega
    · exact h
  · intro d ds ev hA hAuth hlist hgb hst hside
    have hwait := nextEvent_wait store rng (resolveUserID actorID reqUserID) now d ds ev
      hlist hgb hst
    unfold DestGenerate
    dsimp only
    rw [if_neg hA, if_neg hAuth, hwait]
    dsimp only
    rw [if_neg (by simp : ¬(GoErr.nil ≠ GoErr.nil))]
    rw [if_neg (by decide : ¬(DestGenerateResult.GenerateWait = DestGenerateResult.GenerateOK))]
    dsimp only
    rw [if_neg (by simp : ¬(GoErr.nil ≠ GoErr.nil))]
    rcases hdl : DestList store actorID with e4 | dests
    · exact ⟨⟨⟨.GenerateWait, [], []⟩,
        E [.op "Service.DestGenerate", .user (resolveUserID actorID reqUserID), .kind .Internal,
          .str "list dests", .err e4], rfl, rfl⟩, rfl⟩
    · dsimp only
      rw [if_pos (hside dests hdl)]
      exact ⟨⟨_, .nil, rfl, rfl⟩, rfl⟩

/-- Witness for C2 at the unstarted-destination store: the reply is
`GenerateWait`, no row is created, and the general mutation bound. -/
theorem destGenerate_wait_frame_witness :
    (∃ r e3, (DestGenerate waitStore "u" false "me" (fun _ => 0) 0).1 = .ok (r, e3) ∧
      r.result = .GenerateWait) ∧
    (DestGenerate waitStore "u" false "me" (fun _ => 0) 0).2 = 0 ∧
    (DestGenerate waitStore "u" false "me" (fun _ => 0) 0).2 ≤ 1 := by
  have h := destGenerate_wait_frame waitStore "u" false "me" (fun _ => 0) 0
  have hw := h.2.2 ⟨"d1", "u", "e9", none⟩ [] ⟨"e9", "later", "starts later", 100, 200, false⟩
    (by decide) (by simp [resolveUserID]) (by simp [resolveUserID, waitStore]) rfl (by decide)
    (by
      intro dests hdl
      simp only [DestList, waitStore] at hdl
      simp only [if_neg (by decide : ¬("u" = ""))] at hdl
      rcases hdl with ⟨rfl⟩ | h2
      · rfl
      )
  exact ⟨hw.1, hw.2, h.1⟩

end Eventdb
